import Mathlib

/-!
# Verification of the `async_queues` priority scheduler

A shallow embedding of `src/async_queues/src/main.rs`: a two-priority task
scheduler with lazily initialized worker pools, per-poll panic containment
on the high-priority workers, and blocking `join` / `try_join` aggregation
macros.  Pure control flow is translated into Lean functions; the process
state touched by the lazy statics (environment variables, `LazyLock` cells,
spawned-thread counts, channel contents) is made explicit as a record that
the operations thread through.  A Rust panic is modelled as `none` /
`Except.error`.
-/

set_option autoImplicit false

namespace AsyncQueues

/-- Priority classes of the runtime (`enum FutureType { High, Low }`). -/
inductive FutureType where
  | High
  | Low
deriving DecidableEq, Repr

/-! ## Worker loops

Each worker thread runs an infinite loop over the two flume receivers
(`main.rs` lines 104–118 for a high worker, 131–145 for a low worker).
A flume channel's pending messages are modelled as a FIFO list; `try_recv`
takes the head when present.  What a loop iteration does to the queues,
and whether the obtained runnable is run inside `catch_unwind` or bare,
is recorded as an `Event`.  A runnable is a `Job`: an id plus whether
running it panics.
-/

/-- Outcome of running one runnable: it returns normally or panics. -/
inductive RunOutcome where
  | normal
  | panicked
deriving DecidableEq, Repr

/-- A runnable sitting in a queue: an identifier plus the outcome its next
run would have. -/
structure Job where
  id : Nat
  outcome : RunOutcome
deriving DecidableEq, Repr

/-- Nonblocking receive on a flume channel holding `q`: `Ok(head)` removing
it, or the `Err` arm when the channel is empty (the source treats the
`Empty` and `Disconnected` errors alike, so they are not distinguished). -/
def tryRecv (q : List Job) : Option Job × List Job :=
  match q with
  | [] => (none, [])
  | j :: rest => (some j, rest)

/-- Observable effect of one worker-loop iteration. -/
inductive Event where
  /-- The runnable was run inside `catch_unwind(|| runnable.run())`. -/
  | polledInBoundary (j : Job)
  /-- The runnable was run bare, as `runnable.run()`, with no boundary. -/
  | polledBare (j : Job)
  /-- Both queues were empty; the thread slept for `ms` milliseconds. -/
  | slept (ms : Nat)
deriving DecidableEq, Repr

/-- One iteration of a high-priority worker's loop (`main.rs` 104–118):
`try_recv` on the high receiver first; on `Err`, `try_recv` on the low
receiver; on `Err` again, sleep 100 ms.  Every obtained runnable is run
inside `catch_unwind`. -/
def highWorkerIteration (highQ lowQ : List Job) : Event × List Job × List Job :=
  match tryRecv highQ with
  | (some j, highQ2) => (.polledInBoundary j, highQ2, lowQ)
  | (none, highQ2) =>
    match tryRecv lowQ with
    | (some j, lowQ2) => (.polledInBoundary j, highQ2, lowQ2)
    | (none, lowQ2) => (.slept 100, highQ2, lowQ2)

/-- One iteration of a low-priority worker's loop (`main.rs` 131–145):
`try_recv` on the low receiver first; on `Err`, `try_recv` on the high
receiver; on `Err` again, sleep 100 ms.  Each obtained runnable is run as
`let _ = runnable.run()` with no `catch_unwind`. -/
def lowWorkerIteration (highQ lowQ : List Job) : Event × List Job × List Job :=
  match tryRecv lowQ with
  | (some j, lowQ2) => (.polledBare j, highQ, lowQ2)
  | (none, lowQ2) =>
    match tryRecv highQ with
    | (some j, highQ2) => (.polledBare j, highQ2, lowQ2)
    | (none, highQ2) => (.slept 100, highQ2, lowQ2)

/-- Whether the worker thread survives the iteration.  A panic inside
`catch_unwind` is converted to an `Err` that the loop discards; a panic in
a bare `runnable.run()` unwinds through the loop and terminates the
thread. -/
def survives : Event → Bool
  | .polledInBoundary _ => true
  | .polledBare j =>
    match j.outcome with
    | .normal => true
    | .panicked => false
  | .slept _ => true

/-- Ids polled by an event. -/
def polledIds : Event → List Nat
  | .polledInBoundary j => [j.id]
  | .polledBare j => [j.id]
  | .slept _ => []

/-- State of one worker thread together with the two queues it services. -/
structure WState where
  alive : Bool
  highQ : List Job
  lowQ : List Job
  processed : List Nat
deriving DecidableEq, Repr

/-- One scheduling step of a high-priority worker thread: if the thread is
alive it performs one loop iteration; its liveness afterwards is dictated
by `survives`. -/
def highWorkerStep (s : WState) : WState :=
  if s.alive then
    match highWorkerIteration s.highQ s.lowQ with
    | (e, hq, lq) =>
      { alive := survives e, highQ := hq, lowQ := lq,
        processed := s.processed ++ polledIds e }
  else s

/-- One scheduling step of a low-priority worker thread. -/
def lowWorkerStep (s : WState) : WState :=
  if s.alive then
    match lowWorkerIteration s.highQ s.lowQ with
    | (e, hq, lq) =>
      { alive := survives e, highQ := hq, lowQ := lq,
        processed := s.processed ++ polledIds e }
  else s

/-! ## Join combinators

`join!` (`main.rs` 22–32) blocks on each handle in order with
`future::block_on` and pushes the result; a panic while blocking unwinds
out of the macro, discarding the vector.  `try_join!` (36–47) wraps each
individual `block_on` in `catch_unwind` and pushes the `Result`.

A task handle is modelled by the outcome its computation eventually
reaches: an output value, or a panic carrying an info payload. -/

/-- Eventual outcome of a submitted computation. -/
inductive TaskOutcome (T : Type) where
  | ready (t : T)
  | panicked (info : Nat)
deriving DecidableEq, Repr

/-- A task handle, paired 1:1 with a runnable at creation; holds the
computation's eventual outcome. -/
structure TaskHandle (T : Type) where
  outcome : TaskOutcome T
deriving DecidableEq, Repr

/-- Blocking on a handle (`future::block_on`): returns the output, or
propagates the computation's panic (modelled as `Except.error`). -/
def block_on {T : Type} (h : TaskHandle T) : Except Nat T :=
  match h.outcome with
  | .ready t => .ok t
  | .panicked info => .error info

/-- The `join!` macro over a list of handles: block on each in order,
collecting outputs; the first panic unwinds, aborting the whole join. -/
def join {T : Type} : List (TaskHandle T) → Except Nat (List T)
  | [] => .ok []
  | h :: rest =>
    match block_on h with
    | .error info => .error info
    | .ok t =>
      match join rest with
      | .error info => .error info
      | .ok ts => .ok (t :: ts)

/-- The `try_join!` macro: block on each handle in order, wrapping each
individual `block_on` in `catch_unwind`, and push every `Result`. -/
def try_join {T : Type} (hs : List (TaskHandle T)) : List (Except Nat T) :=
  hs.map block_on

/-! ## Runtime configuration builder (`main.rs` 51–85) -/

/-- The `Runtime` builder: worker counts for the two priority classes. -/
structure Runtime where
  high_num : Nat
  low_num : Nat
deriving DecidableEq, Repr

/-- Runtime::new (`main.rs` 57–64): `high_num = num_cores - 2` and
`low_num = 1`, where `num_cores` is the host's available parallelism.  The
subtraction is on `usize` with no floor, so it underflows when
`num_cores < 2`; the underflow panic of a debug build is modelled as
`none`. -/
def Runtime.new (num_cores : Nat) : Option Runtime :=
  if 2 ≤ num_cores then some { high_num := num_cores - 2, low_num := 1 }
  else none

/-- Runtime::with_high_num (`main.rs` 66–69): overwrite the builder's
`high_num` field, touching nothing else. -/
def Runtime.with_high_num (self : Runtime) (num : Nat) : Runtime :=
  { self with high_num := num }

/-- Runtime::with_low_num (`main.rs` 70–73). -/
def Runtime.with_low_num (self : Runtime) (num : Nat) : Runtime :=
  { self with low_num := num }

/-! ## Scheduler façade: lazy statics and submission (`main.rs` 87–165)

`spawn_task` holds four `LazyLock` statics.  `HIGH_CHANNEL` / `LOW_CHANNEL`
are unconditional unbounded flume channels whose receivers live in the
statics for the whole process (so their `send` never fails).  `HIGHQUEUE`
(99–122) reads `HIGH_NUM` from the environment with
`env::var(..).unwrap().parse().unwrap()` and spawns that many high worker
threads; `LOWQUEUE` (123–149) does the same with `LOW_NUM` for low workers.
`std::sync::LazyLock` guarantees the initializer runs exactly once even
under concurrent first accesses, so concurrent forces are modelled as an
arbitrary serialization of idempotent `force` operations on explicit
cells. -/

/-- Process-global state threaded through the operations that touch the
lazy statics: the two configuration environment variables, whether each
queue's `LazyLock` has been initialized, how many worker threads each
initializer has spawned, the pending runnables of each channel (by task
id), and the next fresh task id. -/
structure ProcState where
  env_high : Option Nat
  env_low : Option Nat
  highQueueInit : Bool
  lowQueueInit : Bool
  spawnedHigh : Nat
  spawnedLow : Nat
  highChannel : List Nat
  lowChannel : List Nat
  nextId : Nat
deriving DecidableEq, Repr

/-- Force the `HIGHQUEUE` static (`main.rs` 99–122).  Already initialized:
no effect.  Otherwise the initializer runs once: it unwraps
`env::var("HIGH_NUM")` — a panic (`none`) when the variable is unset — and
spawns exactly that many high worker threads. -/
def forceHighQueue (p : ProcState) : Option ProcState :=
  if p.highQueueInit then some p
  else
    match p.env_high with
    | none => none
    | some n =>
      some { p with highQueueInit := true, spawnedHigh := p.spawnedHigh + n }

/-- Force the `LOWQUEUE` static (`main.rs` 123–149), unwrapping
`env::var("LOW_NUM")` and spawning that many low worker threads on first
access. -/
def forceLowQueue (p : ProcState) : Option ProcState :=
  if p.lowQueueInit then some p
  else
    match p.env_low with
    | none => none
    | some n =>
      some { p with lowQueueInit := true, spawnedLow := p.spawnedLow + n }

/-- spawn_task (`main.rs` 87–165): wrap the future, then
`runnable.schedule()` invokes the schedule closure selected by `order`,
which dereferences the matching queue static (forcing its initializer on
first use) and sends the runnable on the matching channel.  The fresh task
id stands for the runnable/handle pair. -/
def spawn_task (order : FutureType) (p : ProcState) : Option ProcState :=
  match order with
  | .High =>
    (forceHighQueue p).map fun q =>
      { q with highChannel := q.highChannel ++ [q.nextId], nextId := q.nextId + 1 }
  | .Low =>
    (forceLowQueue p).map fun q =>
      { q with lowChannel := q.lowChannel ++ [q.nextId], nextId := q.nextId + 1 }

/-- Runtime::run (`main.rs` 75–85): write the two configuration
environment variables from the builder, then submit one empty task to each
priority class (which forces both pool initializers) and join them.  The
join of the two empty tasks changes none of the modelled state. -/
def Runtime.run (rt : Runtime) (p : ProcState) : Option ProcState :=
  let p1 := { p with env_high := some rt.high_num, env_low := some rt.low_num }
  match spawn_task .High p1 with
  | none => none
  | some p2 => spawn_task .Low p2

/-- A sequence of `spawn_task` calls, serialized in the given order; `none`
as soon as one submission panics. -/
def submitSeq : List FutureType → ProcState → Option ProcState
  | [], p => some p
  | o :: rest, p =>
    match spawn_task o p with
    | none => none
    | some p2 => submitSeq rest p2

/-- A caller-side view pairing the `Runtime` builder value held by the
caller with the process-global state: the builder methods act on the
builder value only. -/
structure World where
  rt : Runtime
  proc : ProcState
deriving DecidableEq, Repr

/-- Calling `with_high_num` on the caller's builder, with the process state
in scope. -/
def World.with_high_num (w : World) (n : Nat) : World :=
  { w with rt := w.rt.with_high_num n }

/-- Calling `with_low_num` on the caller's builder. -/
def World.with_low_num (w : World) (n : Nat) : World :=
  { w with rt := w.rt.with_low_num n }

/-! ## Schedule closures and enqueue failure (`main.rs` 151–160)

The schedule closures are `|runnable| HIGHQUEUE.send(runnable).unwrap()`
and `|runnable| LOWQUEUE.send(runnable).unwrap()`.  flume's `send` on an
unbounded channel fails exactly when every receiver has been dropped; the
`unwrap` turns that failure into a panic, so the submission never returns
a handle in that case.  The channel is modelled with an explicit
receiver-liveness flag to cover the failure arm. -/

/-- A flume channel endpoint: its pending messages and whether any
receiver is still alive. -/
structure ChannelState where
  queue : List Nat
  receiverAlive : Bool
deriving DecidableEq, Repr

/-- flume `Sender::send` on an unbounded channel: appends the message, or
returns `SendError` when all receivers are gone (the error, `Except.error`,
carries the rejected message back). -/
def Sender.send (ch : ChannelState) (x : Nat) : Except Nat ChannelState :=
  if ch.receiverAlive then .ok { ch with queue := ch.queue ++ [x] }
  else .error x

/-- The two channels visible to the schedule closures. -/
structure SchedState where
  high : ChannelState
  low : ChannelState
deriving DecidableEq, Repr

/-- The schedule closure for `order`: send the runnable on the matching
channel and `unwrap`, panicking (`none`) on `SendError`. -/
def schedule (order : FutureType) (st : SchedState) (r : Nat) : Option SchedState :=
  match order with
  | .High =>
    match Sender.send st.high r with
    | .ok ch => some { st with high := ch }
    | .error _ => none
  | .Low =>
    match Sender.send st.low r with
    | .ok ch => some { st with low := ch }
    | .error _ => none

/-! ## Completion dynamics (no lost work)

For the liveness claim the runnables need completion behaviour.  A task is
abstracted by its observable poll behaviour: after `polls` further polls
that return `Pending`, its decisive poll either returns `Ready` (resolving
the task handle), or panics; a third fate, `loops`, models futures such as
the source's `BackgroundFuture` whose every poll returns `Pending` for
ever.  A `Pending` poll re-enqueues the runnable at the back of its
original priority queue (the waker's `wake_by_ref` makes `async_task`
schedule the runnable again through the schedule closure captured at
`spawn` time, which always targets the original queue).

A panicking decisive poll is contained when the polling worker belongs to
the high class — its loop wraps every run in `catch_unwind`
(`main.rs` 104–118) — but unwinds a low-class worker's bare
`runnable.run()` (`main.rs` 131–145), terminating that thread.  The state
therefore tracks the number of live worker threads of each class, the ids
whose polls panicked, and every poll ever performed; a worker class with
no live threads can no longer take effective steps. -/

/-- Observable fate of a task's decisive poll. -/
inductive TaskFate where
  /-- After `polls` Pending polls, the next poll returns `Ready`. -/
  | ready
  /-- After `polls` Pending polls, the next poll panics. -/
  | panics
  /-- Every poll returns `Pending`; the task never completes. -/
  | loops
deriving DecidableEq, Repr

/-- A queued runnable for the completion dynamics: task id, original
priority class (target of its reschedule callback), how many further
`Pending` polls precede its decisive poll, and that poll's fate. -/
structure PendingTask where
  id : Nat
  origin : FutureType
  polls : Nat
  fate : TaskFate
deriving DecidableEq, Repr

/-- The two queues, the resolved and panicked task ids, the log of every
poll performed, and the live worker-thread count of each class. -/
structure RunState where
  highQ : List PendingTask
  lowQ : List PendingTask
  resolved : List Nat
  failed : List Nat
  polled : List Nat
  highWorkers : Nat
  lowWorkers : Nat
deriving DecidableEq, Repr

/-- Re-enqueue a pending runnable at the back of its original priority
queue (what its reschedule callback does). -/
def requeue (t : PendingTask) (s : RunState) : RunState :=
  match t.origin with
  | .High => { s with highQ := s.highQ ++ [t] }
  | .Low => { s with lowQ := s.lowQ ++ [t] }

/-- Poll a dequeued runnable once on a worker thread of class `w`: a
`Pending` outcome re-enqueues it (consuming one pending poll unless the
task loops for ever); a `Ready` outcome resolves the task handle; a panic
marks the task failed and — only when the polling worker is of the low
class, whose loop has no `catch_unwind` — unwinds and kills that worker
thread.  Every case logs the poll. -/
def pollTask (w : FutureType) (t : PendingTask) (s : RunState) : RunState :=
  match t.fate with
  | .loops => requeue t { s with polled := s.polled ++ [t.id] }
  | .ready =>
    if t.polls = 0 then
      { s with resolved := t.id :: s.resolved, polled := s.polled ++ [t.id] }
    else
      requeue { t with polls := t.polls - 1 } { s with polled := s.polled ++ [t.id] }
  | .panics =>
    if t.polls = 0 then
      match w with
      | .High => { s with failed := t.id :: s.failed, polled := s.polled ++ [t.id] }
      | .Low =>
        { s with
          failed := t.id :: s.failed
          polled := s.polled ++ [t.id]
          lowWorkers := s.lowWorkers - 1 }
    else
      requeue { t with polls := t.polls - 1 } { s with polled := s.polled ++ [t.id] }

/-- One loop iteration of a worker of class `w` on the shared queues:
non-blocking dequeue from its primary queue, falling back to the
secondary, polling whatever it obtained; with both queues empty the
iteration only sleeps.  With no live worker thread of class `w` left,
nothing happens. -/
def workerPollStep (w : FutureType) (s : RunState) : RunState :=
  match w with
  | .High =>
    if s.highWorkers = 0 then s
    else
      match s.highQ with
      | t :: rest => pollTask .High t { s with highQ := rest }
      | [] =>
        match s.lowQ with
        | t :: rest => pollTask .High t { s with lowQ := rest }
        | [] => s
  | .Low =>
    if s.lowWorkers = 0 then s
    else
      match s.lowQ with
      | t :: rest => pollTask .Low t { s with lowQ := rest }
      | [] =>
        match s.highQ with
        | t :: rest => pollTask .Low t { s with highQ := rest }
        | [] => s

/-- Run the system along a schedule of worker activations: at step `i` a
worker of class `ws i` attempts one loop iteration.  Concurrency is
modelled as an arbitrary serialization, which the flume channels justify:
each message is delivered to exactly one receiver. -/
def runSchedule (ws : Nat → FutureType) : Nat → RunState → RunState
  | 0, s => s
  | n + 1, s => runSchedule (fun i => ws (i + 1)) n (workerPollStep (ws 0) s)

/-- Polls still owed to a list of queued runnables, counting one even for a
task whose next poll is its decisive one. -/
def sumPolls (l : List PendingTask) : Nat :=
  (l.map fun t => t.polls + 1).sum

/-- Total polls still owed across both queues: a measure that strictly
decreases on every effective worker iteration over never-looping tasks. -/
def RunState.measure (s : RunState) : Nat :=
  sumPolls s.highQ + sumPolls s.lowQ

/-- Task ids present in the system: queued (in either queue), resolved, or
failed by a panicking poll. -/
def RunState.ids (s : RunState) : List Nat :=
  (s.highQ ++ s.lowQ).map PendingTask.id ++ s.resolved ++ s.failed

/-- Task ids that are queued or resolved (panicked ids excluded): the
quantity preserved by runs in which no poll panics. -/
def RunState.liveIds (s : RunState) : List Nat :=
  (s.highQ ++ s.lowQ).map PendingTask.id ++ s.resolved

/-- Live worker threads of a class. -/
def workersOf (s : RunState) : FutureType → Nat
  | .High => s.highWorkers
  | .Low => s.lowWorkers

/-- Every queued task eventually returns `Ready`: the hypothesis of the
claim's resolution part (no panicking poll, no perpetually pending
future). -/
def AllReady (s : RunState) : Prop :=
  (∀ t ∈ s.highQ, t.fate = TaskFate.ready) ∧ (∀ t ∈ s.lowQ, t.fate = TaskFate.ready)

/-- Constant worker schedule that activates a high-priority worker at every
step. -/
def constHigh (_i : Nat) : FutureType :=
  FutureType.High

/-! ## Theorems -/

/-- C1, counterexample: the low-priority worker loop polls a dequeued
runnable bare, not inside `catch_unwind`, and a panicking poll terminates
the worker thread, which then never services the next queued runnable —
refuting that every poll by every worker sits inside a failure boundary
and that the worker continues servicing its queues. -/
theorem lowWorker_bare_poll_counterexample :
    (lowWorkerIteration [] [⟨0, RunOutcome.panicked⟩, ⟨1, RunOutcome.normal⟩]).1 =
      Event.polledBare ⟨0, RunOutcome.panicked⟩ ∧
    (lowWorkerStep ⟨true, [], [⟨0, RunOutcome.panicked⟩, ⟨1, RunOutcome.normal⟩], []⟩).alive
      = false ∧
    lowWorkerStep (lowWorkerStep ⟨true, [], [⟨0, RunOutcome.panicked⟩, ⟨1, RunOutcome.normal⟩], []⟩)
      = lowWorkerStep ⟨true, [], [⟨0, RunOutcome.panicked⟩, ⟨1, RunOutcome.normal⟩], []⟩ ∧
    1 ∉ (lowWorkerStep (lowWorkerStep
      ⟨true, [], [⟨0, RunOutcome.panicked⟩, ⟨1, RunOutcome.normal⟩], []⟩)).processed := by
  decide

/-- C1 (amended): only the high-priority workers execute every poll —
primary and fallback alike — inside `catch_unwind`, so a high worker's
liveness is never changed by a poll; the low-priority workers run every
poll bare, and a panicking poll terminates a low worker thread. -/
theorem panic_containment_split :
    (∀ (hq lq : List Job) (j : Job),
        (highWorkerIteration hq lq).1 ≠ Event.polledBare j) ∧
    (∀ s : WState, (highWorkerStep s).alive = s.alive) ∧
    (∀ (hq lq : List Job) (j : Job),
        (lowWorkerIteration hq lq).1 ≠ Event.polledInBoundary j) ∧
    (∀ (s : WState) (j : Job) (rest : List Job),
        s.alive = true → s.lowQ = j :: rest → j.outcome = RunOutcome.panicked →
        (lowWorkerStep s).alive = false) := by
  refine ⟨?_, ?_, ?_, ?_⟩
  · intro hq lq j
    cases hq <;> cases lq <;> simp [highWorkerIteration, tryRecv]
  · intro s
    cases ha : s.alive with
    | false => simp [highWorkerStep, ha]
    | true =>
      cases hhq : s.highQ with
      | cons j rest =>
        simp [highWorkerStep, ha, hhq, highWorkerIteration, tryRecv, survives]
      | nil =>
        cases hlq : s.lowQ with
        | cons j rest =>
          simp [highWorkerStep, ha, hhq, hlq, highWorkerIteration, tryRecv, survives]
        | nil =>
          simp [highWorkerStep, ha, hhq, hlq, highWorkerIteration, tryRecv, survives]
  · intro hq lq j
    cases hq <;> cases lq <;> simp [lowWorkerIteration, tryRecv]
  · intro s j rest ha hq ho
    simp [lowWorkerStep, ha, hq, lowWorkerIteration, tryRecv, survives, ho]

/-- C1 witness: a panicking job leaves a high worker alive but kills a low
worker. -/
theorem panic_containment_split_witness :
    (highWorkerStep ⟨true, [⟨5, RunOutcome.panicked⟩], [], []⟩).alive = true ∧
    (lowWorkerStep ⟨true, [], [⟨7, RunOutcome.panicked⟩], []⟩).alive = false := by
  constructor
  · exact panic_containment_split.2.1 ⟨true, [⟨5, RunOutcome.panicked⟩], [], []⟩
  · exact panic_containment_split.2.2.2
      ⟨true, [], [⟨7, RunOutcome.panicked⟩], []⟩ ⟨7, RunOutcome.panicked⟩ [] rfl rfl rfl

/-- C2: each worker loop iteration dequeues from its primary queue first
and runs the obtained runnable; only when the primary queue is empty does
it dequeue from the secondary queue and run that runnable; and only when
both queues are empty does it sleep exactly 100 milliseconds. -/
theorem worker_loop_dequeue_order :
    (∀ (j : Job) (hq lq : List Job),
        highWorkerIteration (j :: hq) lq = (Event.polledInBoundary j, hq, lq)) ∧
    (∀ (j : Job) (lq : List Job),
        highWorkerIteration [] (j :: lq) = (Event.polledInBoundary j, [], lq)) ∧
    highWorkerIteration [] [] = (Event.slept 100, [], []) ∧
    (∀ (j : Job) (hq lq : List Job),
        lowWorkerIteration hq (j :: lq) = (Event.polledBare j, hq, lq)) ∧
    (∀ (j : Job) (hq : List Job),
        lowWorkerIteration (j :: hq) [] = (Event.polledBare j, hq, [])) ∧
    lowWorkerIteration [] [] = (Event.slept 100, [], []) :=
  ⟨fun _ _ _ => rfl, fun _ _ => rfl, rfl, fun _ _ _ => rfl, fun _ _ => rfl, rfl⟩

/-- C5, counterexample: with available parallelism 1 the default
construction underflows and panics, and with parallelism 2 it yields a
high worker count of 0 — refuting that construction succeeds for every
parallelism with both counts at least 1. -/
theorem runtime_new_no_floor_counterexample :
    Runtime.new 1 = none ∧
    Runtime.new 2 = some { high_num := 0, low_num := 1 } := by
  decide

/-- C5 (amended): Runtime::new sets the high worker count to available
cores minus 2 and the low worker count to 1, with no flooring: the usize
subtraction panics when fewer than 2 cores are available, the high count
is 0 at exactly 2 cores, and both counts are at least 1 precisely when at
least 3 cores are available. -/
theorem runtime_new_defaults :
    (∀ n : Nat, 2 ≤ n → Runtime.new n = some { high_num := n - 2, low_num := 1 }) ∧
    (∀ n : Nat, n < 2 → Runtime.new n = none) ∧
    (∀ (n : Nat) (rt : Runtime), Runtime.new n = some rt →
        rt.low_num = 1 ∧ (1 ≤ rt.high_num ↔ 3 ≤ n)) := by
  refine ⟨?_, ?_, ?_⟩
  · intro n h
    simp [Runtime.new, h]
  · intro n h
    simp [Runtime.new, Nat.not_le.mpr h]
  · intro n rt h
    by_cases h2 : 2 ≤ n
    · obtain ⟨hn, ln⟩ := rt
      simp only [Runtime.new, if_pos h2, Option.some.injEq, Runtime.mk.injEq] at h
      obtain ⟨h3, h4⟩ := h
      show ln = 1 ∧ (1 ≤ hn ↔ 3 ≤ n)
      all_goals omega
    · simp [Runtime.new, h2] at h

/-- C5 witness: with 4 cores the defaults are 2 high workers and 1 low
worker. -/
theorem runtime_new_defaults_witness :
    Runtime.new 4 = some { high_num := 2, low_num := 1 } :=
  runtime_new_defaults.1 4 (by decide)

/-- C6: a submission's schedule closure either appends the runnable to the
channel matching its declared priority (leaving the other channel
untouched), or — exactly when that channel's receiver side is gone — the
`unwrap` panics, so the call returns nothing and never silently drops the
runnable. -/
theorem schedule_enqueue_or_panic :
    ∀ (st : SchedState) (r : Nat),
      (st.high.receiverAlive = true →
        schedule FutureType.High st r =
          some { st with high := { st.high with queue := st.high.queue ++ [r] } }) ∧
      (st.high.receiverAlive = false → schedule FutureType.High st r = none) ∧
      (st.low.receiverAlive = true →
        schedule FutureType.Low st r =
          some { st with low := { st.low with queue := st.low.queue ++ [r] } }) ∧
      (st.low.receiverAlive = false → schedule FutureType.Low st r = none) := by
  intro st r
  refine ⟨?_, ?_, ?_, ?_⟩ <;> intro h <;> simp [schedule, Sender.send, h]

/-- C6 witness: with a live receiver, scheduling runnable 9 at high
priority appends it to the high channel. -/
theorem schedule_enqueue_or_panic_witness :
    schedule FutureType.High
        ⟨{ queue := [], receiverAlive := true }, { queue := [], receiverAlive := true }⟩ 9 =
      some ⟨{ queue := [9], receiverAlive := true }, { queue := [], receiverAlive := true }⟩ :=
  (schedule_enqueue_or_panic
    ⟨{ queue := [], receiverAlive := true }, { queue := [], receiverAlive := true }⟩ 9).1 rfl

/-- C7: the builder setters mutate only the caller's builder value — the
process state, and with it every spawned-thread count, is untouched;
forcing an already-initialized queue static is a no-op; and re-running the
runtime after both pools have started changes no spawned-thread count. -/
theorem config_frozen_after_start :
    (∀ (w : World) (n : Nat), (w.with_high_num n).proc = w.proc) ∧
    (∀ (w : World) (n : Nat), (w.with_low_num n).proc = w.proc) ∧
    (∀ p : ProcState, p.highQueueInit = true → forceHighQueue p = some p) ∧
    (∀ p : ProcState, p.lowQueueInit = true → forceLowQueue p = some p) ∧
    (∀ (rt : Runtime) (p p2 : ProcState),
        p.highQueueInit = true → p.lowQueueInit = true →
        Runtime.run rt p = some p2 →
        p2.spawnedHigh = p.spawnedHigh ∧ p2.spawnedLow = p.spawnedLow) := by
  refine ⟨fun w n => rfl, fun w n => rfl, ?_, ?_, ?_⟩
  · intro p h
    simp [forceHighQueue, h]
  · intro p h
    simp [forceLowQueue, h]
  · intro rt p p2 h1 h2 hrun
    obtain ⟨eh, el, hi, li, sh, sl, hc, lc, ni⟩ := p
    obtain h1 : hi = true := h1
    obtain h2 : li = true := h2
    subst h1
    subst h2
    simp [Runtime.run, spawn_task, forceHighQueue, forceLowQueue] at hrun
    subst hrun
    exact ⟨rfl, rfl⟩

/-- C7 witness: a concrete started process state is untouched by
`with_high_num` and the high queue static is not re-initialized. -/
theorem config_frozen_after_start_witness :
    (World.with_high_num
        ⟨{ high_num := 2, low_num := 1 },
         ⟨some 2, some 1, true, true, 2, 1, [], [], 4⟩⟩ 99).proc =
      ⟨some 2, some 1, true, true, 2, 1, [], [], 4⟩ ∧
    forceHighQueue ⟨some 2, some 1, true, true, 2, 1, [], [], 4⟩ =
      some ⟨some 2, some 1, true, true, 2, 1, [], [], 4⟩ :=
  ⟨config_frozen_after_start.1
      ⟨{ high_num := 2, low_num := 1 }, ⟨some 2, some 1, true, true, 2, 1, [], [], 4⟩⟩ 99,
   config_frozen_after_start.2.2.1 ⟨some 2, some 1, true, true, 2, 1, [], [], 4⟩ rfl⟩

/-- C3: join blocks on the handles strictly left-to-right — the outputs
come back in argument order whenever every handle resolves (in particular
join of two handles returns their two results in argument order), and the
first handle whose blocking wait panics aborts the whole join with that
panic, whatever comes after it; a join containing any panicked handle
never returns outputs. -/
theorem join_strict_order :
    ∀ T : Type,
      (∀ (hs : List (TaskHandle T)) (ts : List T),
          List.Forall₂ (fun h t => h.outcome = TaskOutcome.ready t) hs ts →
          join hs = Except.ok ts) ∧
      (∀ (a b : TaskHandle T) (x y : T),
          a.outcome = TaskOutcome.ready x → b.outcome = TaskOutcome.ready y →
          join [a, b] = Except.ok [x, y]) ∧
      (∀ (pre post : List (TaskHandle T)) (h : TaskHandle T) (info : Nat),
          (∀ g ∈ pre, ∃ t, g.outcome = TaskOutcome.ready t) →
          h.outcome = TaskOutcome.panicked info →
          join (pre ++ h :: post) = Except.error info) ∧
      (∀ (hs : List (TaskHandle T)) (g : TaskHandle T) (info : Nat),
          g ∈ hs → g.outcome = TaskOutcome.panicked info →
          ∃ info2, join hs = Except.error info2) := by
  intro T
  have hall : ∀ (hs : List (TaskHandle T)) (ts : List T),
      List.Forall₂ (fun h t => h.outcome = TaskOutcome.ready t) hs ts →
      join hs = Except.ok ts := by
    intro hs ts hf
    induction hf with
    | nil => rfl
    | cons hht _ ih =>
      simp [join, block_on, hht, ih]
  refine ⟨hall, ?_, ?_, ?_⟩
  · intro a b x y hx hy
    exact hall [a, b] [x, y] (.cons hx (.cons hy .nil))
  · intro pre post h info hpre hh
    induction pre with
    | nil =>
      simp [join, block_on, hh]
    | cons g pre ih =>
      obtain ⟨t, ht⟩ := hpre g (by simp)
      have ih2 := ih fun g2 hg2 => hpre g2 (by simp [hg2])
      simp [join, block_on, ht, ih2]
  · intro hs g info hg hout
    induction hs with
    | nil => cases hg
    | cons a hs ih =>
      rcases List.mem_cons.mp hg with h1 | h1
      · subst h1
        exact ⟨info, by simp [join, block_on, hout]⟩
      · obtain ⟨info2, h2⟩ := ih h1
        cases hao : a.outcome with
        | ready t => exact ⟨info2, by simp [join, block_on, hao, h2]⟩
        | panicked info3 => exact ⟨info3, by simp [join, block_on, hao]⟩

/-- C3 witness: joining two resolving handles returns their outputs in
argument order. -/
theorem join_strict_order_witness :
    join [TaskHandle.mk (TaskOutcome.ready 1), TaskHandle.mk (TaskOutcome.ready 2)] =
      Except.ok [1, 2] :=
  (join_strict_order Nat).2.1 ⟨TaskOutcome.ready 1⟩ ⟨TaskOutcome.ready 2⟩ 1 2 rfl rfl

/-- C4: try_join produces one result per handle, in the same left-to-right
argument order as join, each result being exactly the outcome of blocking
on that handle inside its own failure boundary — a ready handle yields its
output and a panicked handle yields its panic value at its own position,
so one failing handle never prevents the others from being collected. -/
theorem try_join_isolates_failures :
    ∀ (T : Type) (hs : List (TaskHandle T)),
      (try_join hs).length = hs.length ∧
      (∀ i : Nat, (try_join hs)[i]? = Option.map block_on hs[i]?) ∧
      (∀ (i : Nat) (g : TaskHandle T) (t : T),
          hs[i]? = some g → g.outcome = TaskOutcome.ready t →
          (try_join hs)[i]? = some (Except.ok t)) ∧
      (∀ (i : Nat) (g : TaskHandle T) (info : Nat),
          hs[i]? = some g → g.outcome = TaskOutcome.panicked info →
          (try_join hs)[i]? = some (Except.error info)) := by
  intro T hs
  have hmap : ∀ i : Nat, (try_join hs)[i]? = Option.map block_on hs[i]? := by
    intro i
    simp [try_join]
  refine ⟨by simp [try_join], hmap, ?_, ?_⟩
  · intro i g t hi hout
    rw [hmap i, hi]
    simp [block_on, hout]
  · intro i g info hi hout
    rw [hmap i, hi]
    simp [block_on, hout]

/-- C4 witness: a panicking middle handle yields an error at its own
position while both neighbours' outputs are still collected. -/
theorem try_join_isolates_failures_witness :
    (try_join [TaskHandle.mk (TaskOutcome.ready 5),
               TaskHandle.mk (TaskOutcome.panicked 7),
               TaskHandle.mk (TaskOutcome.ready 6)]).length = 3 ∧
    (try_join [TaskHandle.mk (TaskOutcome.ready 5),
               TaskHandle.mk (TaskOutcome.panicked 7),
               TaskHandle.mk (TaskOutcome.ready 6)])[1]? = some (Except.error 7) ∧
    (try_join [TaskHandle.mk (TaskOutcome.ready 5),
               TaskHandle.mk (TaskOutcome.panicked 7),
               TaskHandle.mk (TaskOutcome.ready 6)])[2]? = some (Except.ok 6) := by
  refine ⟨?_, ?_, ?_⟩
  · exact (try_join_isolates_failures Nat
      [⟨TaskOutcome.ready 5⟩, ⟨TaskOutcome.panicked 7⟩, ⟨TaskOutcome.ready 6⟩]).1
  · exact (try_join_isolates_failures Nat
      [⟨TaskOutcome.ready 5⟩, ⟨TaskOutcome.panicked 7⟩, ⟨TaskOutcome.ready 6⟩]).2.2.2
      1 ⟨TaskOutcome.panicked 7⟩ 7 rfl rfl
  · exact (try_join_isolates_failures Nat
      [⟨TaskOutcome.ready 5⟩, ⟨TaskOutcome.panicked 7⟩, ⟨TaskOutcome.ready 6⟩]).2.2.1
      2 ⟨TaskOutcome.ready 6⟩ 6 rfl rfl

/-- C10: with a configuration environment variable unset, the first
submission of that priority panics while initializing its pool (the
initializer unwraps the `env::var` lookup); when the variable is set, the
initializer spawns exactly the number of workers it carries; and
Runtime::run always sets both variables and then forces both pool
initializations, which is the only configuration handoff. -/
theorem env_var_handoff :
    ∀ p : ProcState,
      (p.env_high = none → p.highQueueInit = false →
        spawn_task FutureType.High p = none) ∧
      (p.env_low = none → p.lowQueueInit = false →
        spawn_task FutureType.Low p = none) ∧
      (∀ nh : Nat, p.env_high = some nh → p.highQueueInit = false →
        ∃ p2, forceHighQueue p = some p2 ∧
          p2.spawnedHigh = p.spawnedHigh + nh ∧ p2.highQueueInit = true) ∧
      (∀ nl : Nat, p.env_low = some nl → p.lowQueueInit = false →
        ∃ p2, forceLowQueue p = some p2 ∧
          p2.spawnedLow = p.spawnedLow + nl ∧ p2.lowQueueInit = true) ∧
      (∀ rt : Runtime, ∃ p2, Runtime.run rt p = some p2 ∧
        p2.env_high = some rt.high_num ∧ p2.env_low = some rt.low_num ∧
        p2.highQueueInit = true ∧ p2.lowQueueInit = true) := by
  intro p
  obtain ⟨eh, el, hi, li, sh, sl, hc, lc, ni⟩ := p
  refine ⟨?_, ?_, ?_, ?_, ?_⟩
  · intro h1 h2
    obtain rfl : eh = none := h1
    obtain rfl : hi = false := h2
    rfl
  · intro h1 h2
    obtain rfl : el = none := h1
    obtain rfl : li = false := h2
    rfl
  · intro nh h1 h2
    obtain rfl : eh = some nh := h1
    obtain rfl : hi = false := h2
    exact ⟨_, rfl, rfl, rfl⟩
  · intro nl h1 h2
    obtain rfl : el = some nl := h1
    obtain rfl : li = false := h2
    exact ⟨_, rfl, rfl, rfl⟩
  · intro rt
    cases hi <;> cases li <;> exact ⟨_, rfl, rfl, rfl, rfl, rfl⟩

/-- C10 witness: in a fresh process state with neither variable set, the
first submission of either priority panics. -/
theorem env_var_handoff_witness :
    spawn_task FutureType.High ⟨none, none, false, false, 0, 0, [], [], 0⟩ = none ∧
    spawn_task FutureType.Low ⟨none, none, false, false, 0, 0, [], [], 0⟩ = none :=
  ⟨(env_var_handoff ⟨none, none, false, false, 0, 0, [], [], 0⟩).1 rfl rfl,
   (env_var_handoff ⟨none, none, false, false, 0, 0, [], [], 0⟩).2.1 rfl rfl⟩

/-- One submission preserves the bootstrap invariant: each queue static is
either untouched (no workers spawned) or initialized exactly once with
exactly the configured worker count; a submission initializes its own
priority's static and appends exactly one runnable to its own channel. -/
theorem spawn_task_inv (o : FutureType) (p : ProcState) (nh nl : Nat)
    (he1 : p.env_high = some nh) (he2 : p.env_low = some nl)
    (hinv1 : (p.highQueueInit = false ∧ p.spawnedHigh = 0) ∨
      (p.highQueueInit = true ∧ p.spawnedHigh = nh))
    (hinv2 : (p.lowQueueInit = false ∧ p.spawnedLow = 0) ∨
      (p.lowQueueInit = true ∧ p.spawnedLow = nl)) :
    ∃ p2, spawn_task o p = some p2 ∧
      p2.env_high = some nh ∧ p2.env_low = some nl ∧
      ((p2.highQueueInit = false ∧ p2.spawnedHigh = 0) ∨
        (p2.highQueueInit = true ∧ p2.spawnedHigh = nh)) ∧
      ((p2.lowQueueInit = false ∧ p2.spawnedLow = 0) ∨
        (p2.lowQueueInit = true ∧ p2.spawnedLow = nl)) ∧
      (p.highQueueInit = true → p2.highQueueInit = true) ∧
      (p.lowQueueInit = true → p2.lowQueueInit = true) ∧
      (o = FutureType.High → p2.highQueueInit = true) ∧
      (o = FutureType.Low → p2.lowQueueInit = true) ∧
      p2.highChannel.length =
        p.highChannel.length + (if o = FutureType.High then 1 else 0) ∧
      p2.lowChannel.length =
        p.lowChannel.length + (if o = FutureType.Low then 1 else 0) := by
  obtain ⟨eh, el, hi, li, sh, sl, hc, lc, ni⟩ := p
  obtain rfl : eh = some nh := he1
  obtain rfl : el = some nl := he2
  cases o with
  | High =>
    cases hi with
    | false =>
      rcases hinv1 with ⟨-, h2⟩ | ⟨h1, -⟩
      · obtain rfl : sh = 0 := h2
        exact ⟨_, rfl, rfl, rfl, Or.inr ⟨rfl, Nat.zero_add nh⟩, hinv2,
          fun _ => rfl, fun h => h, fun _ => rfl, fun h => FutureType.noConfusion h,
          by simp, by simp⟩
      · exact absurd h1 (by simp)
    | true =>
      rcases hinv1 with ⟨h1, -⟩ | ⟨-, h2⟩
      · exact absurd h1 (by simp)
      · exact ⟨_, rfl, rfl, rfl, Or.inr ⟨rfl, h2⟩, hinv2,
          fun _ => rfl, fun h => h, fun _ => rfl, fun h => FutureType.noConfusion h,
          by simp, by simp⟩
  | Low =>
    cases li with
    | false =>
      rcases hinv2 with ⟨-, h2⟩ | ⟨h1, -⟩
      · obtain rfl : sl = 0 := h2
        exact ⟨_, rfl, rfl, rfl, hinv1, Or.inr ⟨rfl, Nat.zero_add nl⟩,
          fun h => h, fun _ => rfl, fun h => FutureType.noConfusion h, fun _ => rfl,
          by simp, by simp⟩
      · exact absurd h1 (by simp)
    | true =>
      rcases hinv2 with ⟨h1, -⟩ | ⟨-, h2⟩
      · exact absurd h1 (by simp)
      · exact ⟨_, rfl, rfl, rfl, hinv1, Or.inr ⟨rfl, h2⟩,
          fun h => h, fun _ => rfl, fun h => FutureType.noConfusion h, fun _ => rfl,
          by simp, by simp⟩

/-- A whole serialized sequence of submissions preserves the bootstrap
invariant, succeeds, initializes every priority class that occurs in the
sequence, and appends exactly one runnable per submission to the matching
channel. -/
theorem submitSeq_inv (orders : List FutureType) :
    ∀ (p : ProcState) (nh nl : Nat),
      p.env_high = some nh → p.env_low = some nl →
      ((p.highQueueInit = false ∧ p.spawnedHigh = 0) ∨
        (p.highQueueInit = true ∧ p.spawnedHigh = nh)) →
      ((p.lowQueueInit = false ∧ p.spawnedLow = 0) ∨
        (p.lowQueueInit = true ∧ p.spawnedLow = nl)) →
      ∃ p2, submitSeq orders p = some p2 ∧
        p2.env_high = some nh ∧ p2.env_low = some nl ∧
        ((p2.highQueueInit = false ∧ p2.spawnedHigh = 0) ∨
          (p2.highQueueInit = true ∧ p2.spawnedHigh = nh)) ∧
        ((p2.lowQueueInit = false ∧ p2.spawnedLow = 0) ∨
          (p2.lowQueueInit = true ∧ p2.spawnedLow = nl)) ∧
        (FutureType.High ∈ orders ∨ p.highQueueInit = true → p2.highQueueInit = true) ∧
        (FutureType.Low ∈ orders ∨ p.lowQueueInit = true → p2.lowQueueInit = true) ∧
        p2.highChannel.length = p.highChannel.length + orders.count FutureType.High ∧
        p2.lowChannel.length = p.lowChannel.length + orders.count FutureType.Low := by
  induction orders with
  | nil =>
    intro p nh nl he1 he2 h1 h2
    refine ⟨p, rfl, he1, he2, h1, h2, ?_, ?_, by simp, by simp⟩
    · rintro (h | h)
      · simp at h
      · exact h
    · rintro (h | h)
      · simp at h
      · exact h
  | cons o rest ih =>
    intro p nh nl he1 he2 h1 h2
    obtain ⟨q, hq, hqe1, hqe2, hq1, hq2, hqi1, hqi2, hqi3, hqi4, hqc1, hqc2⟩ :=
      spawn_task_inv o p nh nl he1 he2 h1 h2
    obtain ⟨p2, hp2, he1b, he2b, hb1, hb2, hm1, hm2, hcc1, hcc2⟩ :=
      ih q nh nl hqe1 hqe2 hq1 hq2
    refine ⟨p2, ?_, he1b, he2b, hb1, hb2, ?_, ?_, ?_, ?_⟩
    · show submitSeq (o :: rest) p = some p2
      simp [submitSeq, hq, hp2]
    · rintro (hmem | hstart)
      · rcases List.mem_cons.mp hmem with rfl | hmem2
        · exact hm1 (Or.inr (hqi3 rfl))
        · exact hm1 (Or.inl hmem2)
      · exact hm1 (Or.inr (hqi1 hstart))
    · rintro (hmem | hstart)
      · rcases List.mem_cons.mp hmem with rfl | hmem2
        · exact hm2 (Or.inr (hqi4 rfl))
        · exact hm2 (Or.inl hmem2)
      · exact hm2 (Or.inr (hqi2 hstart))
    · rw [hcc1, hqc1]
      cases o <;> (simp [List.count_cons]; all_goals omega)
    · rw [hcc2, hqc2]
      cases o <;> (simp [List.count_cons]; all_goals omega)

/-- C8: from a fresh process with both configuration variables set,
serializing any number of racing first submissions in any order performs
the initialization of each queue static exactly once — the high pool
spawns exactly the configured `nh` workers and the low pool exactly `nl`,
never a multiple — every submission succeeds, and all callers feed the
same two channels, which hold exactly one runnable per submission. -/
theorem bootstrap_exactly_once :
    ∀ (orders : List FutureType) (p : ProcState) (nh nl : Nat),
      p.env_high = some nh → p.env_low = some nl →
      p.highQueueInit = false → p.lowQueueInit = false →
      p.spawnedHigh = 0 → p.spawnedLow = 0 →
      ∃ p2, submitSeq orders p = some p2 ∧
        (FutureType.High ∈ orders → p2.highQueueInit = true ∧ p2.spawnedHigh = nh) ∧
        (FutureType.Low ∈ orders → p2.lowQueueInit = true ∧ p2.spawnedLow = nl) ∧
        p2.spawnedHigh ≤ nh ∧ p2.spawnedLow ≤ nl ∧
        p2.highChannel.length = p.highChannel.length + orders.count FutureType.High ∧
        p2.lowChannel.length = p.lowChannel.length + orders.count FutureType.Low := by
  intro orders p nh nl he1 he2 hi1 hi2 hs1 hs2
  obtain ⟨p2, hrun, -, -, hb1, hb2, hm1, hm2, hc1, hc2⟩ :=
    submitSeq_inv orders p nh nl he1 he2 (Or.inl ⟨hi1, hs1⟩) (Or.inl ⟨hi2, hs2⟩)
  refine ⟨p2, hrun, ?_, ?_, ?_, ?_, hc1, hc2⟩
  · intro hmem
    have hinit := hm1 (Or.inl hmem)
    rcases hb1 with ⟨h3, -⟩ | ⟨-, h4⟩
    · rw [hinit] at h3
      exact absurd h3 (by simp)
    · exact ⟨hinit, h4⟩
  · intro hmem
    have hinit := hm2 (Or.inl hmem)
    rcases hb2 with ⟨h3, -⟩ | ⟨-, h4⟩
    · rw [hinit] at h3
      exact absurd h3 (by simp)
    · exact ⟨hinit, h4⟩
  · rcases hb1 with ⟨-, h4⟩ | ⟨-, h4⟩ <;> omega
  · rcases hb2 with ⟨-, h4⟩ | ⟨-, h4⟩ <;> omega

/-- C8 witness: three racing high-priority first submissions with a
configured count of 2 spawn exactly 2 high workers, not 6. -/
theorem bootstrap_exactly_once_witness :
    Option.map ProcState.spawnedHigh
        (submitSeq [FutureType.High, FutureType.High, FutureType.High]
          ⟨some 2, some 1, false, false, 0, 0, [], [], 0⟩) = some 2 ∧
    Option.map (fun p2 => p2.highChannel.length)
        (submitSeq [FutureType.High, FutureType.High, FutureType.High]
          ⟨some 2, some 1, false, false, 0, 0, [], [], 0⟩) = some 3 := by
  obtain ⟨p2, h1, h2, -, -, -, h5, -⟩ :=
    bootstrap_exactly_once [FutureType.High, FutureType.High, FutureType.High]
      ⟨some 2, some 1, false, false, 0, 0, [], [], 0⟩ 2 1 rfl rfl rfl rfl rfl rfl
  rw [h1]
  refine ⟨?_, ?_⟩
  · simp [(h2 (by simp)).2]
  · simp [h5]

/-- Polls owed by an empty queue. -/
theorem sumPolls_nil : sumPolls [] = 0 :=
  rfl

/-- Polls owed by a queue with a task at its head. -/
theorem sumPolls_cons (t : PendingTask) (l : List PendingTask) :
    sumPolls (t :: l) = t.polls + 1 + sumPolls l := by
  simp [sumPolls]

/-- Polls owed distribute over queue concatenation. -/
theorem sumPolls_append (l1 l2 : List PendingTask) :
    sumPolls (l1 ++ l2) = sumPolls l1 + sumPolls l2 := by
  simp [sumPolls]

/-- A queue owing no polls is empty. -/
theorem sumPolls_eq_zero {l : List PendingTask} (h : sumPolls l = 0) : l = [] := by
  cases l with
  | nil => rfl
  | cons t r =>
    rw [sumPolls_cons] at h
    omega

/-- Every poll, whatever its outcome, is logged exactly once. -/
theorem pollTask_polled (w : FutureType) (t : PendingTask) (s : RunState) :
    (pollTask w t s).polled = s.polled ++ [t.id] := by
  obtain ⟨tid, torig, tp, tf⟩ := t
  obtain ⟨hq, lq, res, fl, pl, hw, lw⟩ := s
  cases tf <;> cases torig <;> cases w <;> by_cases h : tp = 0 <;>
    simp [pollTask, requeue, h]

/-- No poll ever kills a high worker thread: panics on high workers are
contained by `catch_unwind`. -/
theorem pollTask_highWorkers (w : FutureType) (t : PendingTask) (s : RunState) :
    (pollTask w t s).highWorkers = s.highWorkers := by
  obtain ⟨tid, torig, tp, tf⟩ := t
  obtain ⟨hq, lq, res, fl, pl, hw, lw⟩ := s
  cases tf <;> cases torig <;> cases w <;> by_cases h : tp = 0 <;>
    simp [pollTask, requeue, h]

/-- A poll of a task that returns `Ready` never kills any worker. -/
theorem pollTask_lowWorkers_ready (w : FutureType) (t : PendingTask) (s : RunState)
    (hf : t.fate = TaskFate.ready) :
    (pollTask w t s).lowWorkers = s.lowWorkers := by
  obtain ⟨tid, torig, tp, tf⟩ := t
  obtain rfl : tf = TaskFate.ready := hf
  obtain ⟨hq, lq, res, fl, pl, hw, lw⟩ := s
  cases torig <;> cases w <;> by_cases h : tp = 0 <;>
    simp [pollTask, requeue, h]

/-- Polling a dequeued `Ready`-fated task adds back at most the task's
remaining polls: either it resolves, or it re-enqueues owing one poll
less. -/
theorem pollTask_measure (w : FutureType) (t : PendingTask) (s : RunState)
    (hf : t.fate = TaskFate.ready) :
    (pollTask w t s).measure ≤ s.measure + t.polls := by
  obtain ⟨tid, torig, tp, tf⟩ := t
  obtain rfl : tf = TaskFate.ready := hf
  obtain ⟨hq, lq, res, fl, pl, hw, lw⟩ := s
  by_cases h : tp = 0
  · simp [pollTask, h, RunState.measure]
  · cases torig <;>
      (simp [pollTask, requeue, h, RunState.measure, sumPolls_append, sumPolls_cons,
        sumPolls_nil]
       all_goals omega)

/-- Polling a dequeued task preserves the multiplicity of every task id
over queues, resolved ids and failed ids: the task moves to the resolved
set, to the failed set, or re-enqueues, always exactly once. -/
theorem pollTask_ids_count (w : FutureType) (t : PendingTask) (s : RunState) (x : Nat) :
    ((pollTask w t s).ids).count x = ((t.id :: s.ids)).count x := by
  obtain ⟨tid, torig, tp, tf⟩ := t
  obtain ⟨hq, lq, res, fl, pl, hw, lw⟩ := s
  cases tf <;> cases torig <;> cases w <;> by_cases h : tp = 0 <;>
    simp [pollTask, requeue, h, RunState.ids, List.count_append, List.count_cons,
      Nat.add_assoc, Nat.add_comm, Nat.add_left_comm]

/-- Polling a `Ready`-fated task preserves the multiplicity of every task
id over queues and resolved ids. -/
theorem pollTask_liveIds_count (w : FutureType) (t : PendingTask) (s : RunState)
    (x : Nat) (hf : t.fate = TaskFate.ready) :
    ((pollTask w t s).liveIds).count x = ((t.id :: s.liveIds)).count x := by
  obtain ⟨tid, torig, tp, tf⟩ := t
  obtain rfl : tf = TaskFate.ready := hf
  obtain ⟨hq, lq, res, fl, pl, hw, lw⟩ := s
  cases torig <;> cases w <;> by_cases h : tp = 0 <;>
    simp [pollTask, requeue, h, RunState.liveIds, List.count_append, List.count_cons,
      Nat.add_assoc, Nat.add_comm, Nat.add_left_comm]

/-- Polling a `Ready`-fated task keeps every queued task `Ready`-fated. -/
theorem pollTask_allReady (w : FutureType) (t : PendingTask) (s : RunState)
    (hf : t.fate = TaskFate.ready) (h : AllReady s) :
    AllReady (pollTask w t s) := by
  obtain ⟨tid, torig, tp, tf⟩ := t
  obtain rfl : tf = TaskFate.ready := hf
  obtain ⟨hq, lq, res, fl, pl, hw, lw⟩ := s
  obtain ⟨h1, h2⟩ := h
  by_cases h0 : tp = 0
  · subst h0
    exact ⟨h1, h2⟩
  · cases torig with
    | High =>
      have hred : pollTask w ⟨tid, FutureType.High, tp, TaskFate.ready⟩
          ⟨hq, lq, res, fl, pl, hw, lw⟩ =
          ⟨hq ++ [⟨tid, FutureType.High, tp - 1, TaskFate.ready⟩], lq, res, fl,
            pl ++ [tid], hw, lw⟩ := by
        simp [pollTask, requeue, h0]
      rw [hred]
      refine ⟨?_, h2⟩
      intro u hu
      rcases List.mem_append.mp hu with hu2 | hu2
      · exact h1 u hu2
      · simp at hu2
        subst hu2
        rfl
    | Low =>
      have hred : pollTask w ⟨tid, FutureType.Low, tp, TaskFate.ready⟩
          ⟨hq, lq, res, fl, pl, hw, lw⟩ =
          ⟨hq, lq ++ [⟨tid, FutureType.Low, tp - 1, TaskFate.ready⟩], res, fl,
            pl ++ [tid], hw, lw⟩ := by
        simp [pollTask, requeue, h0]
      rw [hred]
      refine ⟨h1, ?_⟩
      intro u hu
      rcases List.mem_append.mp hu with hu2 | hu2
      · exact h2 u hu2
      · simp at hu2
        subst hu2
        rfl

/-- With both queues empty a worker iteration only sleeps: the state is
unchanged. -/
theorem workerPollStep_empty (w : FutureType) (s : RunState)
    (h1 : s.highQ = []) (h2 : s.lowQ = []) : workerPollStep w s = s := by
  obtain ⟨hq, lq, res, fl, pl, hw, lw⟩ := s
  obtain rfl : hq = [] := h1
  obtain rfl : lq = [] := h2
  cases w <;> simp [workerPollStep]

/-- No worker iteration, of either class, changes the number of live high
workers: high polls are contained and low polls never touch high
threads. -/
theorem workerPollStep_highWorkers (w : FutureType) (s : RunState) :
    (workerPollStep w s).highWorkers = s.highWorkers := by
  obtain ⟨hq, lq, res, fl, pl, hw, lw⟩ := s
  cases w with
  | High =>
    by_cases h0 : hw = 0
    · simp [workerPollStep, h0]
    · cases hq with
      | cons t rest =>
        have hst : workerPollStep FutureType.High ⟨t :: rest, lq, res, fl, pl, hw, lw⟩ =
            pollTask FutureType.High t ⟨rest, lq, res, fl, pl, hw, lw⟩ := by
          simp [workerPollStep, h0]
        rw [hst, pollTask_highWorkers]
      | nil =>
        cases lq with
        | cons t rest =>
          have hst : workerPollStep FutureType.High ⟨[], t :: rest, res, fl, pl, hw, lw⟩ =
              pollTask FutureType.High t ⟨[], rest, res, fl, pl, hw, lw⟩ := by
            simp [workerPollStep, h0]
          rw [hst, pollTask_highWorkers]
        | nil => simp [workerPollStep, h0]
  | Low =>
    by_cases l0 : lw = 0
    · simp [workerPollStep, l0]
    · cases lq with
      | cons t rest =>
        have hst : workerPollStep FutureType.Low ⟨hq, t :: rest, res, fl, pl, hw, lw⟩ =
            pollTask FutureType.Low t ⟨hq, rest, res, fl, pl, hw, lw⟩ := by
          simp [workerPollStep, l0]
        rw [hst, pollTask_highWorkers]
      | nil =>
        cases hq with
        | cons t rest =>
          have hst : workerPollStep FutureType.Low ⟨t :: rest, [], res, fl, pl, hw, lw⟩ =
              pollTask FutureType.Low t ⟨rest, [], res, fl, pl, hw, lw⟩ := by
            simp [workerPollStep, l0]
          rw [hst, pollTask_highWorkers]
        | nil => simp [workerPollStep, l0]

/-- While every queued task is `Ready`-fated, no worker iteration changes
the number of live low workers either. -/
theorem workerPollStep_lowWorkers_allReady (w : FutureType) (s : RunState)
    (h : AllReady s) :
    (workerPollStep w s).lowWorkers = s.lowWorkers := by
  obtain ⟨hq, lq, res, fl, pl, hw, lw⟩ := s
  obtain ⟨h1, h2⟩ := h
  cases w with
  | High =>
    by_cases h0 : hw = 0
    · simp [workerPollStep, h0]
    · cases hq with
      | cons t rest =>
        have hst : workerPollStep FutureType.High ⟨t :: rest, lq, res, fl, pl, hw, lw⟩ =
            pollTask FutureType.High t ⟨rest, lq, res, fl, pl, hw, lw⟩ := by
          simp [workerPollStep, h0]
        rw [hst]
        exact pollTask_lowWorkers_ready _ _ _ (h1 t (by simp))
      | nil =>
        cases lq with
        | cons t rest =>
          have hst : workerPollStep FutureType.High ⟨[], t :: rest, res, fl, pl, hw, lw⟩ =
              pollTask FutureType.High t ⟨[], rest, res, fl, pl, hw, lw⟩ := by
            simp [workerPollStep, h0]
          rw [hst]
          exact pollTask_lowWorkers_ready _ _ _ (h2 t (by simp))
        | nil => simp [workerPollStep, h0]
  | Low =>
    by_cases l0 : lw = 0
    · simp [workerPollStep, l0]
    · cases lq with
      | cons t rest =>
        have hst : workerPollStep FutureType.Low ⟨hq, t :: rest, res, fl, pl, hw, lw⟩ =
            pollTask FutureType.Low t ⟨hq, rest, res, fl, pl, hw, lw⟩ := by
          simp [workerPollStep, l0]
        rw [hst]
        exact pollTask_lowWorkers_ready _ _ _ (h2 t (by simp))
      | nil =>
        cases hq with
        | cons t rest =>
          have hst : workerPollStep FutureType.Low ⟨t :: rest, [], res, fl, pl, hw, lw⟩ =
              pollTask FutureType.Low t ⟨rest, [], res, fl, pl, hw, lw⟩ := by
            simp [workerPollStep, l0]
          rw [hst]
          exact pollTask_lowWorkers_ready _ _ _ (h1 t (by simp))
        | nil => simp [workerPollStep, l0]

/-- A worker iteration keeps every queued task `Ready`-fated. -/
theorem workerPollStep_allReady (w : FutureType) (s : RunState) (h : AllReady s) :
    AllReady (workerPollStep w s) := by
  obtain ⟨hq, lq, res, fl, pl, hw, lw⟩ := s
  obtain ⟨h1, h2⟩ := h
  cases w with
  | High =>
    by_cases h0 : hw = 0
    · simpa [workerPollStep, h0] using (⟨h1, h2⟩ : AllReady _)
    · cases hq with
      | cons t rest =>
        have hst : workerPollStep FutureType.High ⟨t :: rest, lq, res, fl, pl, hw, lw⟩ =
            pollTask FutureType.High t ⟨rest, lq, res, fl, pl, hw, lw⟩ := by
          simp [workerPollStep, h0]
        rw [hst]
        exact pollTask_allReady _ _ _ (h1 t (by simp))
          ⟨fun u hu => h1 u (by simp [hu]), h2⟩
      | nil =>
        cases lq with
        | cons t rest =>
          have hst : workerPollStep FutureType.High ⟨[], t :: rest, res, fl, pl, hw, lw⟩ =
              pollTask FutureType.High t ⟨[], rest, res, fl, pl, hw, lw⟩ := by
            simp [workerPollStep, h0]
          rw [hst]
          exact pollTask_allReady _ _ _ (h2 t (by simp))
            ⟨h1, fun u hu => h2 u (by simp [hu])⟩
        | nil =>
          rw [workerPollStep_empty _ _ rfl rfl]
          exact ⟨h1, h2⟩
  | Low =>
    by_cases l0 : lw = 0
    · simpa [workerPollStep, l0] using (⟨h1, h2⟩ : AllReady _)
    · cases lq with
      | cons t rest =>
        have hst : workerPollStep FutureType.Low ⟨hq, t :: rest, res, fl, pl, hw, lw⟩ =
            pollTask FutureType.Low t ⟨hq, rest, res, fl, pl, hw, lw⟩ := by
          simp [workerPollStep, l0]
        rw [hst]
        exact pollTask_allReady _ _ _ (h2 t (by simp))
          ⟨h1, fun u hu => h2 u (by simp [hu])⟩
      | nil =>
        cases hq with
        | cons t rest =>
          have hst : workerPollStep FutureType.Low ⟨t :: rest, [], res, fl, pl, hw, lw⟩ =
              pollTask FutureType.Low t ⟨rest, [], res, fl, pl, hw, lw⟩ := by
            simp [workerPollStep, l0]
          rw [hst]
          exact pollTask_allReady _ _ _ (h1 t (by simp))
            ⟨fun u hu => h1 u (by simp [hu]), h2⟩
        | nil =>
          rw [workerPollStep_empty _ _ rfl rfl]
          exact ⟨h1, h2⟩

/-- Every worker iteration preserves the multiplicity of every task id
over queues, resolved ids and failed ids: nothing is duplicated, nothing
leaves unrecorded. -/
theorem workerPollStep_ids_count (w : FutureType) (s : RunState) (x : Nat) :
    ((workerPollStep w s).ids).count x = (s.ids).count x := by
  obtain ⟨hq, lq, res, fl, pl, hw, lw⟩ := s
  cases w with
  | High =>
    by_cases h0 : hw = 0
    · simp [workerPollStep, h0]
    · cases hq with
      | cons t rest =>
        have hst : workerPollStep FutureType.High ⟨t :: rest, lq, res, fl, pl, hw, lw⟩ =
            pollTask FutureType.High t ⟨rest, lq, res, fl, pl, hw, lw⟩ := by
          simp [workerPollStep, h0]
        rw [hst, pollTask_ids_count]
        simp [RunState.ids, List.count_append, List.count_cons, Nat.add_assoc,
          Nat.add_comm, Nat.add_left_comm]
      | nil =>
        cases lq with
        | cons t rest =>
          have hst : workerPollStep FutureType.High ⟨[], t :: rest, res, fl, pl, hw, lw⟩ =
              pollTask FutureType.High t ⟨[], rest, res, fl, pl, hw, lw⟩ := by
            simp [workerPollStep, h0]
          rw [hst, pollTask_ids_count]
          simp [RunState.ids, List.count_append, List.count_cons, Nat.add_assoc,
            Nat.add_comm, Nat.add_left_comm]
        | nil => simp [workerPollStep, h0]
  | Low =>
    by_cases l0 : lw = 0
    · simp [workerPollStep, l0]
    · cases lq with
      | cons t rest =>
        have hst : workerPollStep FutureType.Low ⟨hq, t :: rest, res, fl, pl, hw, lw⟩ =
            pollTask FutureType.Low t ⟨hq, rest, res, fl, pl, hw, lw⟩ := by
          simp [workerPollStep, l0]
        rw [hst, pollTask_ids_count]
        simp [RunState.ids, List.count_append, List.count_cons, Nat.add_assoc,
          Nat.add_comm, Nat.add_left_comm]
      | nil =>
        cases hq with
        | cons t rest =>
          have hst : workerPollStep FutureType.Low ⟨t :: rest, [], res, fl, pl, hw, lw⟩ =
              pollTask FutureType.Low t ⟨rest, [], res, fl, pl, hw, lw⟩ := by
            simp [workerPollStep, l0]
          rw [hst, pollTask_ids_count]
          simp [RunState.ids, List.count_append, List.count_cons, Nat.add_assoc,
            Nat.add_comm, Nat.add_left_comm]
        | nil => simp [workerPollStep, l0]

/-- While every queued task is `Ready`-fated, a worker iteration preserves
the multiplicity of every task id over queues and resolved ids. -/
theorem workerPollStep_liveIds_count (w : FutureType) (s : RunState) (x : Nat)
    (h : AllReady s) :
    ((workerPollStep w s).liveIds).count x = (s.liveIds).count x := by
  obtain ⟨hq, lq, res, fl, pl, hw, lw⟩ := s
  obtain ⟨h1, h2⟩ := h
  cases w with
  | High =>
    by_cases h0 : hw = 0
    · simp [workerPollStep, h0]
    · cases hq with
      | cons t rest =>
        have hst : workerPollStep FutureType.High ⟨t :: rest, lq, res, fl, pl, hw, lw⟩ =
            pollTask FutureType.High t ⟨rest, lq, res, fl, pl, hw, lw⟩ := by
          simp [workerPollStep, h0]
        rw [hst, pollTask_liveIds_count _ _ _ _ (h1 t (by simp))]
        simp [RunState.liveIds, List.count_append, List.count_cons, Nat.add_assoc,
          Nat.add_comm, Nat.add_left_comm]
      | nil =>
        cases lq with
        | cons t rest =>
          have hst : workerPollStep FutureType.High ⟨[], t :: rest, res, fl, pl, hw, lw⟩ =
              pollTask FutureType.High t ⟨[], rest, res, fl, pl, hw, lw⟩ := by
            simp [workerPollStep, h0]
          rw [hst, pollTask_liveIds_count _ _ _ _ (h2 t (by simp))]
          simp [RunState.liveIds, List.count_append, List.count_cons, Nat.add_assoc,
            Nat.add_comm, Nat.add_left_comm]
        | nil => simp [workerPollStep, h0]
  | Low =>
    by_cases l0 : lw = 0
    · simp [workerPollStep, l0]
    · cases lq with
      | cons t rest =>
        have hst : workerPollStep FutureType.Low ⟨hq, t :: rest, res, fl, pl, hw, lw⟩ =
            pollTask FutureType.Low t ⟨hq, rest, res, fl, pl, hw, lw⟩ := by
          simp [workerPollStep, l0]
        rw [hst, pollTask_liveIds_count _ _ _ _ (h2 t (by simp))]
        simp [RunState.liveIds, List.count_append, List.count_cons, Nat.add_assoc,
          Nat.add_comm, Nat.add_left_comm]
      | nil =>
        cases hq with
        | cons t rest =>
          have hst : workerPollStep FutureType.Low ⟨t :: rest, [], res, fl, pl, hw, lw⟩ =
              pollTask FutureType.Low t ⟨rest, [], res, fl, pl, hw, lw⟩ := by
            simp [workerPollStep, l0]
          rw [hst, pollTask_liveIds_count _ _ _ _ (h1 t (by simp))]
          simp [RunState.liveIds, List.count_append, List.count_cons, Nat.add_assoc,
            Nat.add_comm, Nat.add_left_comm]
        | nil => simp [workerPollStep, l0]

/-- While every queued task is `Ready`-fated and the acting worker class
has a live thread, every iteration taken with a non-empty queue strictly
decreases the outstanding-polls measure. -/
theorem workerPollStep_measure_lt (w : FutureType) (s : RunState) (h : AllReady s)
    (hlive : 0 < workersOf s w) (hne : s.highQ ≠ [] ∨ s.lowQ ≠ []) :
    (workerPollStep w s).measure < s.measure := by
  obtain ⟨hq, lq, res, fl, pl, hw, lw⟩ := s
  obtain ⟨h1, h2⟩ := h
  cases w with
  | High =>
    have hw1 : 0 < hw := hlive
    have h0 : ¬ (hw = 0) := by omega
    cases hq with
    | cons t rest =>
      have hst : workerPollStep FutureType.High ⟨t :: rest, lq, res, fl, pl, hw, lw⟩ =
          pollTask FutureType.High t ⟨rest, lq, res, fl, pl, hw, lw⟩ := by
        simp [workerPollStep, h0]
      have hm := pollTask_measure FutureType.High t ⟨rest, lq, res, fl, pl, hw, lw⟩
        (h1 t (by simp))
      have hsum : RunState.measure ⟨t :: rest, lq, res, fl, pl, hw, lw⟩ =
          t.polls + 1 + RunState.measure ⟨rest, lq, res, fl, pl, hw, lw⟩ := by
        simp [RunState.measure, sumPolls_cons]
        all_goals omega
      rw [hst]
      omega
    | nil =>
      cases lq with
      | cons t rest =>
        have hst : workerPollStep FutureType.High ⟨[], t :: rest, res, fl, pl, hw, lw⟩ =
            pollTask FutureType.High t ⟨[], rest, res, fl, pl, hw, lw⟩ := by
          simp [workerPollStep, h0]
        have hm := pollTask_measure FutureType.High t ⟨[], rest, res, fl, pl, hw, lw⟩
          (h2 t (by simp))
        have hsum : RunState.measure ⟨[], t :: rest, res, fl, pl, hw, lw⟩ =
            t.polls + 1 + RunState.measure ⟨[], rest, res, fl, pl, hw, lw⟩ := by
          simp [RunState.measure, sumPolls_cons]
          all_goals omega
        rw [hst]
        omega
      | nil => simp at hne
  | Low =>
    have lw1 : 0 < lw := hlive
    have l0 : ¬ (lw = 0) := by omega
    cases lq with
    | cons t rest =>
      have hst : workerPollStep FutureType.Low ⟨hq, t :: rest, res, fl, pl, hw, lw⟩ =
          pollTask FutureType.Low t ⟨hq, rest, res, fl, pl, hw, lw⟩ := by
        simp [workerPollStep, l0]
      have hm := pollTask_measure FutureType.Low t ⟨hq, rest, res, fl, pl, hw, lw⟩
        (h2 t (by simp))
      have hsum : RunState.measure ⟨hq, t :: rest, res, fl, pl, hw, lw⟩ =
          t.polls + 1 + RunState.measure ⟨hq, rest, res, fl, pl, hw, lw⟩ := by
        simp [RunState.measure, sumPolls_cons]
        all_goals omega
      rw [hst]
      omega
    | nil =>
      cases hq with
      | cons t rest =>
        have hst : workerPollStep FutureType.Low ⟨t :: rest, [], res, fl, pl, hw, lw⟩ =
            pollTask FutureType.Low t ⟨rest, [], res, fl, pl, hw, lw⟩ := by
          simp [workerPollStep, l0]
        have hm := pollTask_measure FutureType.Low t ⟨rest, [], res, fl, pl, hw, lw⟩
          (h1 t (by simp))
        have hsum : RunState.measure ⟨t :: rest, [], res, fl, pl, hw, lw⟩ =
            t.polls + 1 + RunState.measure ⟨rest, [], res, fl, pl, hw, lw⟩ := by
          simp [RunState.measure, sumPolls_cons]
          all_goals omega
        rw [hst]
        omega
      | nil => simp at hne

/-- What a high-worker iteration taken with a live thread and a non-empty
high queue logs: exactly one poll, of the head runnable. -/
theorem workerPollStep_high_cons_polled (s : RunState) (t : PendingTask)
    (rest : List PendingTask) (hw : 0 < s.highWorkers) (hq : s.highQ = t :: rest) :
    (workerPollStep FutureType.High s).polled = s.polled ++ [t.id] := by
  obtain ⟨hq0, lq, res, fl, pl, hwn, lw⟩ := s
  obtain rfl : hq0 = t :: rest := hq
  have hw1 : 0 < hwn := hw
  have h0 : ¬ (hwn = 0) := by omega
  have hst : workerPollStep FutureType.High ⟨t :: rest, lq, res, fl, pl, hwn, lw⟩ =
      pollTask FutureType.High t ⟨rest, lq, res, fl, pl, hwn, lw⟩ := by
    simp [workerPollStep, h0]
  rw [hst, pollTask_polled]

/-- After such an iteration the high queue is the old tail, possibly with
the re-enqueued runnable behind it. -/
theorem workerPollStep_high_cons_queue (s : RunState) (t : PendingTask)
    (rest : List PendingTask) (hw : 0 < s.highWorkers) (hq : s.highQ = t :: rest) :
    ∃ post2, (workerPollStep FutureType.High s).highQ = rest ++ post2 := by
  obtain ⟨hq0, lq, res, fl, pl, hwn, lw⟩ := s
  obtain rfl : hq0 = t :: rest := hq
  obtain ⟨tid, torig, tp, tf⟩ := t
  have hw1 : 0 < hwn := hw
  have h0 : ¬ (hwn = 0) := by omega
  cases tf <;> cases torig <;> by_cases h : tp = 0 <;>
    simp [workerPollStep, h0, pollTask, requeue, h]

/-- Any run of worker iterations preserves the multiplicity of every task
id over queues, resolved ids and failed ids. -/
theorem runSchedule_ids_count :
    ∀ (n : Nat) (ws : Nat → FutureType) (s : RunState) (x : Nat),
      ((runSchedule ws n s).ids).count x = (s.ids).count x := by
  intro n
  induction n with
  | zero =>
    intro ws s x
    rfl
  | succ n ih =>
    intro ws s x
    exact (ih (fun i => ws (i + 1)) (workerPollStep (ws 0) s) x).trans
      (workerPollStep_ids_count (ws 0) s x)

/-- While every queued task is `Ready`-fated, any run keeps the tasks
`Ready`-fated, keeps every worker alive, and preserves queued-or-resolved
id multiplicities. -/
theorem runSchedule_allReady_spec :
    ∀ (n : Nat) (ws : Nat → FutureType) (s : RunState),
      AllReady s →
      AllReady (runSchedule ws n s) ∧
      (∀ w2 : FutureType, workersOf (runSchedule ws n s) w2 = workersOf s w2) ∧
      (∀ x : Nat, ((runSchedule ws n s).liveIds).count x = (s.liveIds).count x) := by
  intro n
  induction n with
  | zero =>
    intro ws s h
    exact ⟨h, fun _ => rfl, fun _ => rfl⟩
  | succ n ih =>
    intro ws s h
    have hstep := workerPollStep_allReady (ws 0) s h
    obtain ⟨ha, hb, hc⟩ := ih (fun i => ws (i + 1)) (workerPollStep (ws 0) s) hstep
    refine ⟨ha, ?_, ?_⟩
    · intro w2
      refine (hb w2).trans ?_
      cases w2 with
      | High => exact workerPollStep_highWorkers (ws 0) s
      | Low => exact workerPollStep_lowWorkers_allReady (ws 0) s h
    · intro x
      exact (hc x).trans (workerPollStep_liveIds_count (ws 0) s x h)

/-- While every queued task is `Ready`-fated and every scheduled worker
class has a live thread, running at least as many iterations as the
outstanding-polls measure drains both queues, under any interleaving. -/
theorem runSchedule_drains :
    ∀ (n : Nat) (ws : Nat → FutureType) (s : RunState),
      AllReady s → (∀ i, 0 < workersOf s (ws i)) → s.measure ≤ n →
      (runSchedule ws n s).highQ = [] ∧ (runSchedule ws n s).lowQ = [] := by
  intro n
  induction n with
  | zero =>
    intro ws s h hlive hm
    obtain ⟨hq, lq, res, fl, pl, hw, lw⟩ := s
    have h0 : sumPolls hq + sumPolls lq ≤ 0 := hm
    show hq = [] ∧ lq = []
    exact ⟨sumPolls_eq_zero (by omega), sumPolls_eq_zero (by omega)⟩
  | succ n ih =>
    intro ws s h hlive hm
    have hpres : ∀ w2, workersOf (workerPollStep (ws 0) s) w2 = workersOf s w2 := by
      intro w2
      cases w2 with
      | High => exact workerPollStep_highWorkers (ws 0) s
      | Low => exact workerPollStep_lowWorkers_allReady (ws 0) s h
    by_cases hq1 : s.highQ = []
    · by_cases hq2 : s.lowQ = []
      · have hfix := workerPollStep_empty (ws 0) s hq1 hq2
        have h0 : s.measure = 0 := by
          obtain ⟨hq, lq, res, fl, pl, hw, lw⟩ := s
          obtain rfl : hq = [] := hq1
          obtain rfl : lq = [] := hq2
          rfl
        show (runSchedule (fun i => ws (i + 1)) n (workerPollStep (ws 0) s)).highQ = [] ∧
          (runSchedule (fun i => ws (i + 1)) n (workerPollStep (ws 0) s)).lowQ = []
        rw [hfix]
        exact ih (fun i => ws (i + 1)) s h (fun i => hlive (i + 1)) (by omega)
      · have hlt := workerPollStep_measure_lt (ws 0) s h (hlive 0) (Or.inr hq2)
        exact ih (fun i => ws (i + 1)) (workerPollStep (ws 0) s)
          (workerPollStep_allReady (ws 0) s h)
          (fun i => by rw [hpres (ws (i + 1))]; exact hlive (i + 1)) (by omega)
    · have hlt := workerPollStep_measure_lt (ws 0) s h (hlive 0) (Or.inl hq1)
      exact ih (fun i => ws (i + 1)) (workerPollStep (ws 0) s)
        (workerPollStep_allReady (ws 0) s h)
        (fun i => by rw [hpres (ws (i + 1))]; exact hlive (i + 1)) (by omega)

/-- Under a schedule of high-worker iterations with a live high thread, a
runnable at position `k` of the high queue is polled within `k + 1`
iterations, whatever the fates of the runnables ahead of it: high polls
are contained, so the worker survives every panic. -/
theorem highQ_polled_once :
    ∀ (pre : List PendingTask) (ws : Nat → FutureType) (s : RunState)
      (W : PendingTask) (post : List PendingTask),
      (∀ i, ws i = FutureType.High) → s.highQ = pre ++ W :: post →
      0 < s.highWorkers →
      W.id ∈ (runSchedule ws (pre.length + 1) s).polled := by
  intro pre
  induction pre with
  | nil =>
    intro ws s W post hws hq hw
    have h0 : runSchedule ws ((List.length ([] : List PendingTask)) + 1) s =
        workerPollStep (ws 0) s := rfl
    rw [h0, hws 0,
      workerPollStep_high_cons_polled s W post hw (by simpa using hq)]
    simp
  | cons t pre ih =>
    intro ws s W post hws hq hw
    have hq2 : s.highQ = t :: (pre ++ W :: post) := by simpa using hq
    obtain ⟨post2, hqnew⟩ := workerPollStep_high_cons_queue s t (pre ++ W :: post) hw hq2
    have hwnew : 0 < (workerPollStep FutureType.High s).highWorkers := by
      rw [workerPollStep_highWorkers]
      exact hw
    have hqshape : (workerPollStep FutureType.High s).highQ =
        pre ++ W :: (post ++ post2) := by
      rw [hqnew]
      simp
    have hrec := ih (fun i => ws (i + 1)) (workerPollStep FutureType.High s) W
      (post ++ post2) (fun i => hws (i + 1)) hqshape hwnew
    have h1 : runSchedule ws ((t :: pre).length + 1) s =
        runSchedule (fun i => ws (i + 1)) (pre.length + 1) (workerPollStep (ws 0) s) := rfl
    rw [h1, hws 0]
    exact hrec

/-- C9, counterexample: in the 2-core default configuration (no high
workers, per Runtime::new) the sole low worker polls a panicking runnable
bare, the unwind kills it, and the ready runnable queued behind stays
queued and unpolled; both worker classes' iterations are thereafter the
identity, so on every schedule that runnable is never polled — refuting
the unconditional claim that every submitted Runnable is eventually
polled at least once. -/
theorem no_lost_work_counterexample :
    (workerPollStep FutureType.Low
        ⟨[], [⟨0, FutureType.Low, 0, TaskFate.panics⟩,
              ⟨1, FutureType.Low, 0, TaskFate.ready⟩], [], [], [], 0, 1⟩).lowWorkers = 0 ∧
    (workerPollStep FutureType.Low
        ⟨[], [⟨0, FutureType.Low, 0, TaskFate.panics⟩,
              ⟨1, FutureType.Low, 0, TaskFate.ready⟩], [], [], [], 0, 1⟩).lowQ =
      [⟨1, FutureType.Low, 0, TaskFate.ready⟩] ∧
    1 ∉ (workerPollStep FutureType.Low
        ⟨[], [⟨0, FutureType.Low, 0, TaskFate.panics⟩,
              ⟨1, FutureType.Low, 0, TaskFate.ready⟩], [], [], [], 0, 1⟩).polled ∧
    1 ∉ (workerPollStep FutureType.Low
        ⟨[], [⟨0, FutureType.Low, 0, TaskFate.panics⟩,
              ⟨1, FutureType.Low, 0, TaskFate.ready⟩], [], [], [], 0, 1⟩).resolved ∧
    workerPollStep FutureType.High (workerPollStep FutureType.Low
        ⟨[], [⟨0, FutureType.Low, 0, TaskFate.panics⟩,
              ⟨1, FutureType.Low, 0, TaskFate.ready⟩], [], [], [], 0, 1⟩) =
      workerPollStep FutureType.Low
        ⟨[], [⟨0, FutureType.Low, 0, TaskFate.panics⟩,
              ⟨1, FutureType.Low, 0, TaskFate.ready⟩], [], [], [], 0, 1⟩ ∧
    workerPollStep FutureType.Low (workerPollStep FutureType.Low
        ⟨[], [⟨0, FutureType.Low, 0, TaskFate.panics⟩,
              ⟨1, FutureType.Low, 0, TaskFate.ready⟩], [], [], [], 0, 1⟩) =
      workerPollStep FutureType.Low
        ⟨[], [⟨0, FutureType.Low, 0, TaskFate.panics⟩,
              ⟨1, FutureType.Low, 0, TaskFate.ready⟩], [], [], [], 0, 1⟩ := by
  decide

/-- C9 (amended): along every serialized interleaving of worker
iterations — panicking polls, worker deaths and perpetually pending
futures included — task-id multiplicities over the queues, the resolved
ids and the panicked ids are preserved for ever: no runnable is duplicated
and a runnable leaves the queues only by resolving or by a recorded
panicking poll, never silently.  While a high worker thread is live, a
schedule of high-worker iterations polls every runnable in the high queue
at least once within position-plus-one iterations, panicking and
never-Ready runnables included, since high polls are contained.  And when
every queued task eventually returns Ready and every scheduled worker
class has a live thread, every queued task's handle resolves within the
outstanding-polls measure. -/
theorem no_lost_work (ws : Nat → FutureType) (s : RunState) :
    (∀ (n x : Nat), ((runSchedule ws n s).ids).count x = (s.ids).count x) ∧
    (∀ (pre post : List PendingTask) (W : PendingTask),
        (∀ i, ws i = FutureType.High) → s.highQ = pre ++ W :: post →
        0 < s.highWorkers →
        W.id ∈ (runSchedule ws (pre.length + 1) s).polled) ∧
    (∀ t : PendingTask, AllReady s → (∀ i, 0 < workersOf s (ws i)) →
        t ∈ s.highQ ∨ t ∈ s.lowQ →
        t.id ∈ (runSchedule ws s.measure s).resolved) := by
  refine ⟨fun n x => runSchedule_ids_count n ws s x, ?_, ?_⟩
  · intro pre post W hws hq hw
    exact highQ_polled_once pre ws s W post hws hq hw
  · intro t h hlive hmem
    have hdrain := runSchedule_drains s.measure ws s h hlive (Nat.le_refl _)
    have hcnt := (runSchedule_allReady_spec s.measure ws s h).2.2 t.id
    have hmem2 : t.id ∈ s.liveIds := by
      rcases hmem with hm | hm
      · exact List.mem_append_left _
          (List.mem_map_of_mem PendingTask.id (List.mem_append_left _ hm))
      · exact List.mem_append_left _
          (List.mem_map_of_mem PendingTask.id (List.mem_append_right _ hm))
    have hids : (runSchedule ws s.measure s).liveIds =
        (runSchedule ws s.measure s).resolved := by
      show ((runSchedule ws s.measure s).highQ ++
          (runSchedule ws s.measure s).lowQ).map PendingTask.id ++
        (runSchedule ws s.measure s).resolved = _
      rw [hdrain.1, hdrain.2]
      rfl
    have hpos : 0 < ((runSchedule ws s.measure s).liveIds).count t.id := by
      rw [hcnt]
      exact List.count_pos_iff.mpr hmem2
    rw [hids] at hpos
    exact List.count_pos_iff.mp hpos

/-- C9 witness: a perpetually pending high task alone in the high queue is
polled within one high-worker iteration, and a high task needing 2 pending
polls before Ready is resolved within its measure of 3 iterations. -/
theorem no_lost_work_witness :
    0 ∈ (runSchedule constHigh 1
        ⟨[⟨0, FutureType.High, 0, TaskFate.loops⟩], [], [], [], [], 1, 1⟩).polled ∧
    1 ∈ (runSchedule constHigh 3
        ⟨[⟨1, FutureType.High, 2, TaskFate.ready⟩], [], [], [], [], 1, 1⟩).resolved := by
  constructor
  · exact (no_lost_work constHigh
      ⟨[⟨0, FutureType.High, 0, TaskFate.loops⟩], [], [], [], [], 1, 1⟩).2.1
      [] [] ⟨0, FutureType.High, 0, TaskFate.loops⟩ (fun i => rfl) rfl Nat.one_pos
  · exact (no_lost_work constHigh
      ⟨[⟨1, FutureType.High, 2, TaskFate.ready⟩], [], [], [], [], 1, 1⟩).2.2
      ⟨1, FutureType.High, 2, TaskFate.ready⟩
      ⟨fun u hu => by simp at hu; subst hu; rfl, fun u hu => by simp at hu⟩
      (fun i => Nat.one_pos)
      (Or.inl (List.mem_singleton.mpr rfl))

end AsyncQueues
